import Mathlib

/-!
Verification of the DevBoard Kanban card store (`src/script.js`).

The card data model, the store operations (add / update / delete / move,
embedded from `handleAddCardSubmit`, `deleteCard` and `handleDrop`), the
storage adapter (`loadFromStorage` / `saveToStorage`) and the renderer
(`renderBoard`) are translated into Lean as executable definitions, and the
spec's claims about them are proved or refuted below.
-/

namespace DevBoard

/-- A card, as stored in the in-memory `cards` array of `script.js`.
`dueDate = none` models the JavaScript `undefined` field (dropped by
`JSON.stringify`). -/
structure Card where
  id : String
  title : String
  description : String
  column : String
  tags : List String
  dueDate : Option String
  deriving DecidableEq, Repr

/-- `COLUMNS` from `script.js` line 11: the four fixed column names. -/
def COLUMNS : List String := ["to-learn", "in-progress", "blocked", "completed"]

/-- `DEFAULT_CARDS` from `script.js` lines 14-24: the 9-card seed dataset
used when no saved data exists.  Field values are copied verbatim from the
source; no seed card has a `dueDate`. -/
def DEFAULT_CARDS : List Card := [
  { id := "1", title := "Setup Development Environment",
    description := "Install IDE, Node, and tooling.", column := "completed",
    tags := ["DevOps"], dueDate := none },
  { id := "2", title := "Build Kanban Board",
    description := "Create this board with drag and drop.", column := "completed",
    tags := ["Front-End"], dueDate := none },
  { id := "3", title := "Learn API Integration",
    description := "REST and async patterns.", column := "completed",
    tags := ["Back-End"], dueDate := none },
  { id := "4", title := "Deploy to GitHub Pages",
    description := "Make board accessible online", column := "completed",
    tags := ["DevOps"], dueDate := none },
  { id := "10", title := "Week 2: API Integration",
    description := "Learn to fetch external data", column := "to-learn",
    tags := ["Back-End"], dueDate := none },
  { id := "6", title := "Feature - Card Tags",
    description := "Categorize cards with tags", column := "complete",
    tags := ["Front-End"], dueDate := none },
  { id := "7", title := "Feature - due dates",
    description := "Insights when cards are due", column := "to-learn",
    tags := ["Front-End"], dueDate := none },
  { id := "8", title := "Feature - Priority levels",
    description := "Prioritize cards based on importance", column := "to-learn",
    tags := ["Front-End"], dueDate := none },
  { id := "9", title := "Feature - Search filter",
    description := "Search cards by title or description", column := "to-learn",
    tags := ["Front-End"], dueDate := none }]

/-- JavaScript `String.prototype.trim()`: strip whitespace from both ends.
Defined over the character list so that it evaluates by kernel reduction. -/
def trimString (s : String) : String :=
  ⟨((s.data.dropWhile Char.isWhitespace).reverse.dropWhile Char.isWhitespace).reverse⟩

/-- The `dueDate` field actually stored by `handleAddCardSubmit`: the source
computes `dueDate = input.trim()` and stores `dueDate || undefined`, so a
whitespace-only or empty input becomes an absent field. -/
def storedDueDate (dueDate : String) : Option String :=
  if trimString dueDate = "" then none else some (trimString dueDate)

/-- Mutate the first card whose `id` matches, leave the rest alone.  This is
the effect of `cards.find(c => c.id === X)` followed by in-place mutation of
the found card, as done in the edit branch of `handleAddCardSubmit` and in
`handleDrop`. -/
def updateFirst (cards : List Card) (cardId : String) (f : Card → Card) :
    List Card :=
  match cards with
  | [] => []
  | c :: rest =>
    if c.id = cardId then f c :: rest else c :: updateFirst rest cardId f

/-- The add-mode path of `handleAddCardSubmit` (`script.js` lines 282-325):
reject an empty trimmed title, reject more than 2 tags, otherwise append a
new card with the freshly generated id and `column = "to-learn"`.  The id
produced by `generateId()` (`Date.now` plus `Math.random`, line 49-51) is
passed in as `newId`; the store performs no uniqueness check on it. -/
def addCard (cards : List Card) (newId title description : String)
    (tags : List String) (dueDate : String) : List Card :=
  let t := trimString title
  if t = "" then cards
  else if tags.length > 2 then cards
  else
    cards ++ [{ id := newId, title := t, description := trimString description,
                column := "to-learn", tags := tags,
                dueDate := storedDueDate dueDate }]

/-- The in-place field assignments of the edit branch of
`handleAddCardSubmit` (`script.js` lines 301-304): `title`, `description`,
`tags` and `dueDate` are overwritten, `id` and `column` are not assigned. -/
def editFields (title description : String) (tags : List String)
    (dueDate : String) (c : Card) : Card :=
  { c with title := trimString title, description := trimString description,
           tags := tags, dueDate := storedDueDate dueDate }

/-- The edit-mode path of `handleAddCardSubmit` (`script.js` lines 282-310):
same title and tag validation as add, then the card found by
`editingCardId` gets its fields overwritten via `editFields`. -/
def updateCard (cards : List Card) (editingCardId title description : String)
    (tags : List String) (dueDate : String) : List Card :=
  let t := trimString title
  if t = "" then cards
  else if tags.length > 2 then cards
  else updateFirst cards editingCardId (editFields title description tags dueDate)

/-- `deleteCard` (`script.js` lines 355-359): `cards.filter(c => c.id !== cardId)`. -/
def deleteCard (cards : List Card) (cardId : String) : List Card :=
  cards.filter (fun c => c.id ≠ cardId)

/-- The card-moving core of `handleDrop` (`script.js` lines 412-429): a
falsy (empty) or unknown column id aborts, a falsy (empty) card id aborts,
an id with no matching card aborts, otherwise the found card's `column` is
set to the target column. -/
def moveCard (cards : List Card) (columnId cardId : String) : List Card :=
  if columnId = "" ∨ COLUMNS.contains columnId = false then cards
  else if cardId = "" then cards
  else updateFirst cards cardId (fun c => { c with column := columnId })

/-- A JSON value, the codomain of `JSON.parse`.  `loadFromStorage` in
`script.js` returns whatever `JSON.parse` produced (after checking only
that it is a non-empty array), so the storage layer is modelled over this
type rather than over `Card`. -/
inductive JVal where
  | jnull : JVal
  | jbool : Bool → JVal
  | jnum : Int → JVal
  | jstr : String → JVal
  | jarr : List JVal → JVal
  | jobj : List (String × JVal) → JVal

/-- The JSON object `JSON.stringify` produces for one card: string fields in
literal order, `tags` as an array of strings, and the `dueDate` key dropped
entirely when the field is `undefined` (modelled by `none`). -/
def encodeCard (c : Card) : JVal :=
  match c.dueDate with
  | none => .jobj [("id", .jstr c.id), ("title", .jstr c.title),
      ("description", .jstr c.description), ("column", .jstr c.column),
      ("tags", .jarr (c.tags.map JVal.jstr))]
  | some d => .jobj [("id", .jstr c.id), ("title", .jstr c.title),
      ("description", .jstr c.description), ("column", .jstr c.column),
      ("tags", .jarr (c.tags.map JVal.jstr)), ("dueDate", .jstr d)]

/-- The observable states of the persistent slot `devboard-kanban-cards`:
`absent` is `localStorage.getItem` returning `null`, `unreadable` is
`getItem` or `JSON.parse` throwing (caught by the `try`/`catch` in
`loadFromStorage`), `val v` is a successful parse producing `v`. -/
inductive Slot where
  | absent : Slot
  | unreadable : Slot
  | val : JVal → Slot

/-- `loadFromStorage` (`script.js` lines 57-67): missing slot, thrown error,
non-array parse or empty array all fall back to a copy of `DEFAULT_CARDS`;
any non-empty parsed array is returned as-is, with no per-element shape
check.  The fallback is the seed rendered as JSON values via `encodeCard`,
since in-memory card objects and parsed objects are the same values in
JavaScript.  The function is total: every slot state yields a result, so
no exception escapes to the caller. -/
def loadFromStorage : Slot → List JVal
  | .absent => DEFAULT_CARDS.map encodeCard
  | .unreadable => DEFAULT_CARDS.map encodeCard
  | .val (.jarr xs) => if xs.length = 0 then DEFAULT_CARDS.map encodeCard else xs
  | .val _ => DEFAULT_CARDS.map encodeCard

/-- `saveToStorage` (`script.js` lines 72-78): writes
`JSON.stringify(cards)` over the slot; a later successful `JSON.parse`
yields the same array of values. -/
def saveToStorage (cards : List JVal) : Slot := .val (.jarr cards)

/-- `getDueDateLabel` (`script.js` lines 95-108), embedded at the
calendar-day level: the `Date` parsing and the `setHours(0,0,0,0)`
normalisation of both sides are abstracted to integer local-calendar-day
numbers, so `due = none` models an empty or unparseable input (the falsy
and `isNaN` guards on lines 96-98) and `due = some d` a date on day `d`.
For two midnights the source's `Math.round(diffMs / 86400000)` is exactly
the day difference, so `diffDays = d - today`. -/
def getDueDateLabel (due : Option Int) (today : Int) : String :=
  match due with
  | none => ""
  | some d =>
    let diffDays : Int := d - today
    if diffDays > 0 then
      "Due in " ++ toString diffDays ++ " day" ++ (if diffDays = 1 then "" else "s")
    else if diffDays = 0 then "Due today"
    else
      let a := diffDays.natAbs
      if a = 1 then "1 day overdue" else toString a ++ " days overdue"

/-- The `containers` map built at the top of `renderBoard` (`script.js`
lines 198-207): one empty card container per fixed column, nothing for any
other key. -/
def emptyContainers : String → Option (List Card) :=
  fun col => if COLUMNS.contains col then some [] else none

/-- One step of the `cards.forEach` loop in `renderBoard` (lines 209-214):
look up `containers[card.column]`; if there is no such container the card
is skipped, otherwise it is appended to that container. -/
def appendToContainer (containers : String → Option (List Card)) (c : Card) :
    String → Option (List Card) :=
  match containers c.column with
  | none => containers
  | some l => fun col => if col = c.column then some (l ++ [c]) else containers col

/-- `renderBoard` (`script.js` lines 198-215): the per-column contents of
the board after rendering `cards`, as a map from column name to the list
of cards placed in that column's container, in placement order. -/
def renderBoard (cards : List Card) : String → Option (List Card) :=
  cards.foldl appendToContainer emptyContainers

/-! ### Helper lemmas -/

theorem map_update_nomatch (f : Card → Card) (cardId : String)
    (cards : List Card) (h : ∀ c ∈ cards, c.id ≠ cardId) :
    cards.map (fun c => if c.id = cardId then f c else c) = cards := by
  induction cards with
  | nil => rfl
  | cons c rest ih =>
    have hc : c.id ≠ cardId := h c (by simp)
    simp only [List.map_cons, if_neg hc, List.cons.injEq, true_and]
    exact ih (fun c' hc' => h c' (by simp [hc']))

theorem updateFirst_nomatch (f : Card → Card) (cardId : String)
    (cards : List Card) (h : ∀ c ∈ cards, c.id ≠ cardId) :
    updateFirst cards cardId f = cards := by
  induction cards with
  | nil => rfl
  | cons c rest ih =>
    have hc : c.id ≠ cardId := h c (by simp)
    simp only [updateFirst, if_neg hc, List.cons.injEq, true_and]
    exact ih (fun c' hc' => h c' (by simp [hc']))

theorem updateFirst_eq_map (f : Card → Card) (cardId : String)
    (cards : List Card) (hnd : (cards.map Card.id).Nodup) :
    updateFirst cards cardId f =
      cards.map (fun c => if c.id = cardId then f c else c) := by
  induction cards with
  | nil => rfl
  | cons c rest ih =>
    simp only [List.map_cons, List.nodup_cons] at hnd
    by_cases hc : c.id = cardId
    · have hrest : ∀ c' ∈ rest, c'.id ≠ cardId := by
        intro c' hc' heq
        apply hnd.1
        rw [hc]
        exact heq ▸ List.mem_map_of_mem Card.id hc'
      simp only [updateFirst, if_pos hc, List.map_cons, if_pos hc,
        List.cons.injEq, true_and]
      exact (map_update_nomatch f cardId rest hrest).symm
    · simp only [updateFirst, if_neg hc, List.map_cons, if_neg hc,
        List.cons.injEq, true_and]
      exact ih hnd.2

theorem filter_ne_length (cardId : String) (cards : List Card)
    (hnd : (cards.map Card.id).Nodup) (hmem : cardId ∈ cards.map Card.id) :
    (cards.filter (fun c => c.id ≠ cardId)).length + 1 = cards.length := by
  induction cards with
  | nil => simp at hmem
  | cons c rest ih =>
    simp only [List.map_cons, List.nodup_cons] at hnd
    by_cases hc : c.id = cardId
    · have hrest : rest.filter (fun c' => c'.id ≠ cardId) = rest := by
        apply List.filter_eq_self.mpr
        intro c' hc'
        have : c'.id ≠ cardId := by
          intro heq
          apply hnd.1
          rw [hc]
          exact heq ▸ List.mem_map_of_mem Card.id hc'
        simpa using this
      have hdec : (decide (c.id ≠ cardId)) = false := by simp [hc]
      rw [List.filter_cons, hdec, if_neg (by simp : ¬ (false = true)), hrest,
        List.length_cons]
    · have hmem' : cardId ∈ rest.map Card.id := by
        simp only [List.map_cons, List.mem_cons] at hmem
        rcases hmem with h | h
        · exact absurd h.symm hc
        · exact h
      simp only [List.filter_cons]
      have : (decide (c.id ≠ cardId)) = true := by simpa using hc
      simp only [this, if_pos]
      simpa [Nat.succ_eq_add_one] using congrArg Nat.succ (ih hnd.2 hmem')

theorem encodeCard_injective : Function.Injective encodeCard := by
  intro c c' h
  cases c with
  | mk i t d col tg dd =>
  cases c' with
  | mk i' t' d' col' tg' dd' =>
  have htags : ∀ a b : List String, a.map JVal.jstr = b.map JVal.jstr → a = b := by
    intro a b hab
    exact List.map_injective_iff.mpr (fun x y hxy => by cases hxy; rfl) hab
  cases dd <;> cases dd' <;> simp [encodeCard] at h
  · obtain ⟨h1, h2, h3, h4, h5⟩ := h
    simp [h1, h2, h3, h4, htags tg tg' h5]
  · obtain ⟨h1, h2, h3, h4, h5, h6⟩ := h
    simp [h1, h2, h3, h4, htags tg tg' h5, h6]

theorem foldl_appendToContainer (cards : List Card) :
    ∀ (f : String → List Card) (col : String),
      (cards.foldl appendToContainer
        (fun c => if COLUMNS.contains c then some (f c) else none)) col =
      if COLUMNS.contains col then
        some (f col ++ cards.filter (fun c => c.column = col))
      else none := by
  induction cards with
  | nil =>
    intro f col
    by_cases h : col ∈ COLUMNS <;> simp [h]
  | cons c rest ih =>
    intro f col
    rw [List.foldl_cons]
    by_cases hc : c.column ∈ COLUMNS
    · have happ : appendToContainer
          (fun c' => if COLUMNS.contains c' then some (f c') else none) c =
          (fun c' => if COLUMNS.contains c' then
            some ((fun x => if x = c.column then f x ++ [c] else f x) c')
          else none) := by
        funext col'
        by_cases hcol : col' = c.column <;> simp [appendToContainer, hc, hcol]
      rw [happ, ih]
      by_cases hcolv : col ∈ COLUMNS
      · by_cases hcc : col = c.column
        · simp [hcolv, List.filter_cons, hcc, List.append_assoc]
        · have hcc' : ¬ c.column = col := fun h => hcc h.symm
          simp [hcolv, List.filter_cons, hcc, hcc']
      · simp [hcolv]
    · have happ : appendToContainer
          (fun c' => if COLUMNS.contains c' then some (f c') else none) c =
          (fun c' => if COLUMNS.contains c' then some (f c') else none) := by
        funext col'
        simp [appendToContainer, hc]
      rw [happ, ih]
      by_cases hcolv : col ∈ COLUMNS
      · have hne : ¬ c.column = col := fun h => hc (h ▸ hcolv)
        simp [hcolv, List.filter_cons, hne]
      · simp [hcolv]

theorem renderBoard_eq_filter (cards : List Card) (col : String) :
    renderBoard cards col =
      if COLUMNS.contains col then
        some (cards.filter (fun c => c.column = col))
      else none := by
  have h := foldl_appendToContainer cards (fun _ => []) col
  simp only [List.nil_append] at h
  rw [renderBoard]
  have : emptyContainers =
      (fun c => if COLUMNS.contains c then some ((fun _ => ([] : List Card)) c) else none) := rfl
  rw [this]
  exact h

/-! ### Claim theorems -/

/-- C1: the claimed column invariant is broken by the code before any
operation runs: the seed dataset `DEFAULT_CARDS` itself contains a card
(id "6") whose `column` value is the string `"complete"`, which is not one
of the four fixed values in `COLUMNS`.  Since every reachable state
includes the initial seed state, the invariant fails there. -/
theorem seed_card_violates_column_enum :
    ∃ c ∈ DEFAULT_CARDS, c.id = "6" ∧ c.column = "complete" ∧
      COLUMNS.contains c.column = false := by
  decide

/-- C2 counterexample: the claim fails on the code in two ways.  First, a
slot that parses to a non-empty array of values that are not Card-shaped at
all (here the number 1) is returned verbatim, not replaced by the seed:
`loadFromStorage` checks only `Array.isArray` and non-emptiness.  Second,
the 9 seed cards do not span all four columns: no seed card is in
`in-progress` and none is in `blocked`. -/
theorem load_counterexample :
    loadFromStorage (Slot.val (JVal.jarr [JVal.jnum 1])) = [JVal.jnum 1] ∧
    loadFromStorage (Slot.val (JVal.jarr [JVal.jnum 1])) ≠
      DEFAULT_CARDS.map encodeCard ∧
    "in-progress" ∉ DEFAULT_CARDS.map Card.column ∧
    "blocked" ∉ DEFAULT_CARDS.map Card.column := by
  refine ⟨rfl, ?_, by decide, by decide⟩
  intro h
  have hlen := congrArg List.length h
  simp [loadFromStorage, DEFAULT_CARDS] at hlen

/-- C2 (amended): `loadFromStorage` is a total function of the slot state,
so no exception reaches its caller; it returns the fixed 9-card seed
whenever the slot is absent, unreadable, parses to a non-array value, or
parses to an empty array; a non-empty parsed array is returned verbatim,
without any per-element Card-shape check; and the seed cards span the
`to-learn` and `completed` columns (not all four). -/
theorem load_fallback_spec :
    loadFromStorage Slot.absent = DEFAULT_CARDS.map encodeCard ∧
    loadFromStorage Slot.unreadable = DEFAULT_CARDS.map encodeCard ∧
    (∀ v : JVal, (∀ xs, v ≠ JVal.jarr xs) →
      loadFromStorage (Slot.val v) = DEFAULT_CARDS.map encodeCard) ∧
    loadFromStorage (Slot.val (JVal.jarr [])) = DEFAULT_CARDS.map encodeCard ∧
    (∀ xs, xs ≠ [] → loadFromStorage (Slot.val (JVal.jarr xs)) = xs) ∧
    DEFAULT_CARDS.length = 9 ∧
    "to-learn" ∈ DEFAULT_CARDS.map Card.column ∧
    "completed" ∈ DEFAULT_CARDS.map Card.column := by
  refine ⟨rfl, rfl, ?_, rfl, ?_, by decide, by decide, by decide⟩
  · intro v hv
    cases v with
    | jnull => rfl
    | jbool b => rfl
    | jnum n => rfl
    | jstr s => rfl
    | jarr xs => exact absurd rfl (hv xs)
    | jobj fs => rfl
  · intro xs hxs
    have hlen : xs.length ≠ 0 := fun h => hxs (List.length_eq_zero.mp h)
    simp [loadFromStorage, hlen]

/-- C2 witness: `load_fallback_spec` applied at the concrete slot states
`null` (a non-array value) and the one-element array `[null]`. -/
theorem load_fallback_spec_witness :
    loadFromStorage (Slot.val JVal.jnull) = DEFAULT_CARDS.map encodeCard ∧
    loadFromStorage (Slot.val (JVal.jarr [JVal.jnull])) = [JVal.jnull] :=
  ⟨load_fallback_spec.2.2.1 JVal.jnull (fun _ h => JVal.noConfusion h),
   load_fallback_spec.2.2.2.2.1 [JVal.jnull] (List.cons_ne_nil _ _)⟩

/-- C3 counterexample: `addCard` never checks the freshly generated id
against the ids already in the collection (`generateId` mixes a timestamp
and a random value, with no uniqueness check and no retry), so when the
generator's output coincides with a stored id — stored ids are arbitrary
strings, since `loadFromStorage` accepts any non-empty parsed array — the
new card is appended with an id equal to an existing card's id. -/
theorem addCard_id_collision :
    (addCard [{ id := "m1xq0abc", title := "Old card", description := "",
                column := "to-learn", tags := [], dueDate := none }]
        "m1xq0abc" "New task" "" [] "").map Card.id =
      ["m1xq0abc", "m1xq0abc"] := by
  decide

/-- C3 (amended): for every input with non-empty trimmed title and at most
2 tags, `addCard` appends exactly one card at the end of the collection
with `column = "to-learn"` and the generated id, increasing the size by
exactly 1; the generated id is distinct from every existing id whenever
the id generator avoids the existing ids (which the store does not check),
and in that case id-uniqueness of the collection is preserved. -/
theorem addCard_spec (cards : List Card) (newId title description : String)
    (tags : List String) (dueDate : String)
    (ht : trimString title ≠ "") (htags : tags.length ≤ 2) :
    addCard cards newId title description tags dueDate =
      cards ++ [{ id := newId, title := trimString title,
                  description := trimString description, column := "to-learn",
                  tags := tags, dueDate := storedDueDate dueDate }] ∧
    (addCard cards newId title description tags dueDate).length =
      cards.length + 1 ∧
    ((cards.map Card.id).Nodup → newId ∉ cards.map Card.id →
      ((addCard cards newId title description tags dueDate).map Card.id).Nodup) := by
  have hng : ¬ tags.length > 2 := by omega
  refine ⟨by simp [addCard, ht, hng], by simp [addCard, ht, hng], ?_⟩
  intro hnd hfresh
  simp only [addCard, if_neg ht, if_neg hng, List.map_append, List.map_cons,
    List.map_nil]
  rw [List.nodup_append]
  refine ⟨hnd, List.nodup_singleton _, ?_⟩
  intro a ha hb
  simp only [List.mem_singleton] at hb
  exact hfresh (hb ▸ ha)

/-- C3 witness: `addCard_spec` applied to the empty collection with the
concrete input id "k1", title "Task", no tags and no due date. -/
theorem addCard_spec_witness :
    addCard [] "k1" "Task" "" [] "" =
      [{ id := "k1", title := trimString "Task", description := trimString "",
         column := "to-learn", tags := [], dueDate := storedDueDate "" }] ∧
    (addCard [] "k1" "Task" "" [] "").length = 1 :=
  have h := addCard_spec [] "k1" "Task" "" [] "" (by decide) (by decide)
  ⟨h.1, h.2.1⟩

/-- C4: for every collection, `addCard` with an empty or whitespace-only
title leaves the collection unchanged, and `addCard` or `updateCard` with
3 or more tags leaves the collection unchanged. -/
theorem validation_noop (cards : List Card)
    (newId editingCardId title description : String) (tags : List String)
    (dueDate : String) :
    (trimString title = "" →
      addCard cards newId title description tags dueDate = cards) ∧
    (3 ≤ tags.length →
      addCard cards newId title description tags dueDate = cards ∧
      updateCard cards editingCardId title description tags dueDate = cards) := by
  constructor
  · intro ht
    simp [addCard, ht]
  · intro htags
    have hgt : tags.length > 2 := by omega
    constructor
    · by_cases ht : trimString title = "" <;> simp [addCard, ht, hgt]
    · by_cases ht : trimString title = "" <;> simp [updateCard, ht, hgt]

/-- C4 witness: `validation_noop` at the seed collection, once with a
whitespace-only title and once with 3 tags. -/
theorem validation_noop_witness :
    addCard DEFAULT_CARDS "k1" "   " "d" [] "" = DEFAULT_CARDS ∧
    addCard DEFAULT_CARDS "k1" "T" "d" ["a", "b", "c"] "" = DEFAULT_CARDS ∧
    updateCard DEFAULT_CARDS "1" "T" "d" ["a", "b", "c"] "" = DEFAULT_CARDS :=
  have h1 := validation_noop DEFAULT_CARDS "k1" "1" "   " "d" [] ""
  have h2 := validation_noop DEFAULT_CARDS "k1" "1" "T" "d" ["a", "b", "c"] ""
  ⟨h1.1 (by decide), (h2.2 (by decide)).1, (h2.2 (by decide)).2⟩

/-- C5: when the ids in the collection are pairwise distinct, `moveCard`
with a valid target column and a non-empty card id rewrites exactly the
matching card's `column` to the target, via a pointwise map that leaves
every other field and every other card untouched (and preserves order);
with an invalid column name, or an id matching no card, it is a no-op. -/
theorem moveCard_spec (cards : List Card) (columnId cardId : String)
    (hnd : (cards.map Card.id).Nodup) :
    (moveCard cards columnId cardId =
      if COLUMNS.contains columnId = true ∧ cardId ≠ "" then
        cards.map (fun c =>
          if c.id = cardId then { c with column := columnId } else c)
      else cards) ∧
    ((∀ c ∈ cards, c.id ≠ cardId) → moveCard cards columnId cardId = cards) := by
  constructor
  · by_cases h1 : COLUMNS.contains columnId = true ∧ cardId ≠ ""
    · obtain ⟨hcol, hcid⟩ := h1
      have hcne : ¬ columnId = "" := by
        intro h
        rw [h] at hcol
        exact absurd hcol (by decide)
      have hguard : ¬ (columnId = "" ∨ COLUMNS.contains columnId = false) := by
        intro hor
        rcases hor with h | h
        · exact hcne h
        · rw [h] at hcol
          exact Bool.noConfusion hcol
      rw [moveCard, if_neg hguard, if_neg hcid, if_pos ⟨hcol, hcid⟩]
      exact updateFirst_eq_map _ _ _ hnd
    · rw [if_neg h1, moveCard]
      split_ifs with g1 g2
      · rfl
      · rfl
      · exfalso
        apply h1
        refine ⟨?_, g2⟩
        cases hb : COLUMNS.contains columnId with
        | false => exact absurd (Or.inr hb) g1
        | true => rfl
  · intro hnone
    rw [moveCard]
    split_ifs
    · rfl
    · rfl
    · exact updateFirst_nomatch _ _ _ hnone

/-- C5 witness: `moveCard_spec` on the seed collection (whose ids are
pairwise distinct), moving card "1" to "blocked", and attempting a move to
the invalid column name "nonsense". -/
theorem moveCard_spec_witness :
    moveCard DEFAULT_CARDS "blocked" "1" =
      DEFAULT_CARDS.map (fun c =>
        if c.id = "1" then { c with column := "blocked" } else c) ∧
    moveCard DEFAULT_CARDS "nonsense" "1" = DEFAULT_CARDS := by
  constructor
  · have h := (moveCard_spec DEFAULT_CARDS "blocked" "1" (by decide)).1
    rw [h, if_pos ⟨by decide, by decide⟩]
  · have h := (moveCard_spec DEFAULT_CARDS "nonsense" "1" (by decide)).1
    rw [h, if_neg]
    intro hcontra
    exact absurd hcontra.1 (by decide)

theorem updateFirst_map_field {β : Type} (g : Card → β) (f : Card → Card)
    (cardId : String) (hf : ∀ c, g (f c) = g c) (cards : List Card) :
    (updateFirst cards cardId f).map g = cards.map g := by
  induction cards with
  | nil => rfl
  | cons c rest ih =>
    by_cases hc : c.id = cardId
    · simp [updateFirst, hc, hf]
    · simp [updateFirst, hc, ih]

/-- C6: `updateCard` keeps the `id` and `column` of every card (positionally,
so order is also kept); when the ids are pairwise distinct and the input
passes validation it rewrites exactly the matching card's `title`,
`description`, `tags` and `dueDate` fields and leaves every other card
untouched; and with an id matching no card it is a no-op. -/
theorem updateCard_spec (cards : List Card)
    (editingCardId title description : String) (tags : List String)
    (dueDate : String) (hnd : (cards.map Card.id).Nodup) :
    ((updateCard cards editingCardId title description tags dueDate).map
      Card.id = cards.map Card.id) ∧
    ((updateCard cards editingCardId title description tags dueDate).map
      Card.column = cards.map Card.column) ∧
    (trimString title ≠ "" → tags.length ≤ 2 →
      updateCard cards editingCardId title description tags dueDate =
        cards.map (fun c =>
          if c.id = editingCardId then editFields title description tags dueDate c
          else c)) ∧
    ((∀ c ∈ cards, c.id ≠ editingCardId) →
      updateCard cards editingCardId title description tags dueDate = cards) := by
  refine ⟨?_, ?_, ?_, ?_⟩
  · simp only [updateCard]
    split_ifs
    · rfl
    · rfl
    · exact updateFirst_map_field Card.id
        (editFields title description tags dueDate) editingCardId
        (fun c => rfl) cards
  · simp only [updateCard]
    split_ifs
    · rfl
    · rfl
    · exact updateFirst_map_field Card.column
        (editFields title description tags dueDate) editingCardId
        (fun c => rfl) cards
  · intro ht htg
    have hng : ¬ tags.length > 2 := by omega
    simp only [updateCard, if_neg ht, if_neg hng]
    exact updateFirst_eq_map _ _ _ hnd
  · intro hnone
    simp only [updateCard]
    split_ifs
    · rfl
    · rfl
    · exact updateFirst_nomatch _ _ _ hnone

/-- C6 witness: `updateCard_spec` on the seed collection, editing card "2"
with a valid title and one tag, and attempting to edit the absent id
"999". -/
theorem updateCard_spec_witness :
    updateCard DEFAULT_CARDS "2" "New title" "New desc" ["Front-End"] "" =
      DEFAULT_CARDS.map (fun c =>
        if c.id = "2" then editFields "New title" "New desc" ["Front-End"] "" c
        else c) ∧
    updateCard DEFAULT_CARDS "999" "T" "" [] "" = DEFAULT_CARDS := by
  constructor
  · exact (updateCard_spec DEFAULT_CARDS "2" "New title" "New desc"
      ["Front-End"] "" (by decide)).2.2.1 (by decide) (by decide)
  · exact (updateCard_spec DEFAULT_CARDS "999" "T" "" [] ""
      (by decide)).2.2.2 (by decide)

/-- C7: when the ids in the collection are pairwise distinct and a card
with the given id is present, `deleteCard` shrinks the collection by
exactly one element, keeps every card whose id differs, keeps nothing
else, and a second `deleteCard` with the same id changes nothing. -/
theorem deleteCard_spec (cards : List Card) (cardId : String)
    (hnd : (cards.map Card.id).Nodup) (hmem : cardId ∈ cards.map Card.id) :
    (deleteCard cards cardId).length + 1 = cards.length ∧
    (∀ c ∈ cards, c.id ≠ cardId → c ∈ deleteCard cards cardId) ∧
    (∀ c ∈ deleteCard cards cardId, c ∈ cards ∧ c.id ≠ cardId) ∧
    deleteCard (deleteCard cards cardId) cardId = deleteCard cards cardId := by
  refine ⟨filter_ne_length cardId cards hnd hmem, ?_, ?_, ?_⟩
  · intro c hc hne
    exact List.mem_filter.mpr ⟨hc, by simpa using hne⟩
  · intro c hc
    have h := List.mem_filter.mp hc
    exact ⟨h.1, by simpa using h.2⟩
  · unfold deleteCard
    apply List.filter_eq_self.mpr
    intro c hc
    exact (List.mem_filter.mp hc).2

/-- C7 witness: `deleteCard_spec` on the seed collection deleting card
"3": the size drops from 9 to 8 and a repeated delete is a no-op. -/
theorem deleteCard_spec_witness :
    (deleteCard DEFAULT_CARDS "3").length + 1 = DEFAULT_CARDS.length ∧
    deleteCard (deleteCard DEFAULT_CARDS "3") "3" = deleteCard DEFAULT_CARDS "3" :=
  have h := deleteCard_spec DEFAULT_CARDS "3" (by decide) (by decide)
  ⟨h.1, h.2.2.2⟩

/-- C8: round-trip — saving any non-empty collection and loading it back
yields the same collection: the serialized values are returned verbatim
(same order), and since `encodeCard` is injective the values determine the
original cards' ids and every field uniquely. -/
theorem save_load_roundtrip (cards : List Card) (h : cards ≠ []) :
    loadFromStorage (saveToStorage (cards.map encodeCard)) =
      cards.map encodeCard ∧
    (∀ cards' : List Card,
      cards'.map encodeCard = cards.map encodeCard → cards' = cards) := by
  constructor
  · have hlen : (cards.map encodeCard).length ≠ 0 := by
      intro hh
      rw [List.length_map] at hh
      exact h (List.length_eq_zero.mp hh)
    simp only [saveToStorage, loadFromStorage]
    rw [if_neg hlen]
  · intro cards' h'
    exact List.map_injective_iff.mpr encodeCard_injective h'

/-- C8 witness: `save_load_roundtrip` applied to the concrete non-empty
seed collection. -/
theorem save_load_roundtrip_witness :
    loadFromStorage (saveToStorage (DEFAULT_CARDS.map encodeCard)) =
      DEFAULT_CARDS.map encodeCard :=
  (save_load_roundtrip DEFAULT_CARDS (by decide)).1

/-- C9: the due-date label rules, with dates abstracted to local calendar
day numbers (`none` is an empty or unparseable input): empty label for
invalid input, "Due in n day(s)" with singular for 1 when the due day is
n > 0 days after today, "Due today" on the same day, and "n day(s)
overdue" with singular for 1 and the absolute value when the due day is
n > 0 days before today. -/
theorem getDueDateLabel_spec :
    (∀ today : Int, getDueDateLabel none today = "") ∧
    (∀ today n : Int, 0 < n →
      getDueDateLabel (some (today + n)) today =
        "Due in " ++ toString n ++ " day" ++ (if n = 1 then "" else "s")) ∧
    (∀ today : Int, getDueDateLabel (some today) today = "Due today") ∧
    (∀ today n : Int, 0 < n →
      getDueDateLabel (some (today - n)) today =
        if n = 1 then "1 day overdue"
        else toString n.natAbs ++ " days overdue") := by
  refine ⟨fun _ => rfl, ?_, ?_, ?_⟩
  · intro today n hn
    have hd : today + n - today = n := by ring
    simp only [getDueDateLabel, hd, if_pos hn]
  · intro today
    simp [getDueDateLabel]
  · intro today n hn
    have hd : today - n - today = -n := by ring
    have hneg : ¬ (-n > 0) := by omega
    have hnz : ¬ (-n = 0) := by omega
    simp only [getDueDateLabel, hd, if_neg hneg, if_neg hnz, Int.natAbs_neg]
    by_cases h1 : n = 1
    · subst h1
      simp
    · have hne : n.natAbs ≠ 1 := by omega
      simp [h1, hne]

/-- C9 witness: `getDueDateLabel_spec` at day number 20000 with offsets 3,
0 and -1. -/
theorem getDueDateLabel_spec_witness :
    getDueDateLabel none 20000 = "" ∧
    getDueDateLabel (some (20000 + 3)) 20000 = "Due in 3 days" ∧
    getDueDateLabel (some 20000) 20000 = "Due today" ∧
    getDueDateLabel (some (20000 - 1)) 20000 = "1 day overdue" := by
  have h := getDueDateLabel_spec
  refine ⟨h.1 20000, ?_, h.2.2.1 20000, ?_⟩
  · rw [h.2.1 20000 3 (by decide)]
    rfl
  · rw [h.2.2.2 20000 1 (by decide)]
    rfl

/-- C10: rendering characterised per column — a valid column's container
receives exactly the cards whose `column` equals it, in collection order;
a card whose `column` is not one of the four fixed values is placed in no
container (it is silently not displayed), and a card with a valid column
appears only in its own column's container. -/
theorem renderBoard_spec (cards : List Card) :
    (∀ col, renderBoard cards col =
      if COLUMNS.contains col then
        some (cards.filter (fun c => c.column = col))
      else none) ∧
    (∀ c ∈ cards, COLUMNS.contains c.column = false →
      ∀ col cs, renderBoard cards col = some cs → c ∉ cs) ∧
    (∀ c ∈ cards, COLUMNS.contains c.column = true →
      (∃ cs, renderBoard cards c.column = some cs ∧ c ∈ cs) ∧
      (∀ col cs, renderBoard cards col = some cs → c ∈ cs →
        col = c.column)) := by
  refine ⟨renderBoard_eq_filter cards, ?_, ?_⟩
  · intro c hc hinv col cs hcol hmem
    rw [renderBoard_eq_filter] at hcol
    by_cases hv : col ∈ COLUMNS
    · rw [if_pos (by simpa using hv)] at hcol
      obtain rfl : cs = cards.filter (fun c => c.column = col) :=
        (Option.some.injEq _ _ ▸ hcol).symm
      have := (List.mem_filter.mp hmem).2
      have hcc : c.column = col := by simpa using this
      rw [hcc] at hinv
      have htrue : COLUMNS.contains col = true := by simpa using hv
      rw [htrue] at hinv
      exact Bool.noConfusion hinv
    · rw [if_neg (by simpa using hv)] at hcol
      exact Option.noConfusion hcol
  · intro c hc hval
    constructor
    · refine ⟨cards.filter (fun x => x.column = c.column), ?_, ?_⟩
      · rw [renderBoard_eq_filter, if_pos hval]
      · exact List.mem_filter.mpr ⟨hc, by simp⟩
    · intro col cs hcol hmem
      rw [renderBoard_eq_filter] at hcol
      by_cases hv : col ∈ COLUMNS
      · rw [if_pos (by simpa using hv)] at hcol
        obtain rfl : cs = cards.filter (fun c => c.column = col) :=
          (Option.some.injEq _ _ ▸ hcol).symm
        have h2 := (List.mem_filter.mp hmem).2
        have hcc : c.column = col := by simpa using h2
        exact hcc.symm
      · rw [if_neg (by simpa using hv)] at hcol
        exact Option.noConfusion hcol

/-- C10 witness: `renderBoard_spec` on the seed collection — the
"to-learn" container holds exactly the seed's to-learn cards, there is no
container at all for the invalid key "complete", and the seed card with
the invalid column "complete" (id "6") is absent from the "to-learn"
container. -/
theorem renderBoard_spec_witness :
    renderBoard DEFAULT_CARDS "to-learn" =
      some (DEFAULT_CARDS.filter (fun c => c.column = "to-learn")) ∧
    renderBoard DEFAULT_CARDS "complete" = none ∧
    ({ id := "6", title := "Feature - Card Tags",
       description := "Categorize cards with tags", column := "complete",
       tags := ["Front-End"], dueDate := none } : Card) ∉
      DEFAULT_CARDS.filter (fun c => c.column = "to-learn") := by
  have h := renderBoard_spec DEFAULT_CARDS
  refine ⟨?_, ?_, ?_⟩
  · rw [h.1 "to-learn", if_pos (by decide)]
  · rw [h.1 "complete", if_neg (by decide)]
  · exact h.2.1 _ (by decide) (by decide) "to-learn" _
      (by rw [h.1 "to-learn", if_pos (by decide)])

end DevBoard
